import Mathlib

/-!
Verification development for the book-recommendation engine
(`apps/backend/src/services/recommendationService.ts` and the
`RecommendationController` in `apps/backend/src/indexBooks.ts`).

The TypeScript code is embedded shallowly: pure functions become Lean
functions, the external gateways (embedding model, Pinecone index) become an
explicit environment of responses, and each run returns both its result and
the list of outbound gateway calls it made, in order.
-/

namespace RecBook

/-! ## JavaScript string primitives used by the service -/

/-- The JS regex class `\s` restricted to the ASCII range
(space, tab, LF, VT, FF, CR). -/
def jsWs (c : Char) : Bool :=
  c = ' ' || c = '\t' || c = '\n' || c = '\x0b' || c = '\x0c' || c = '\r'

/-- JS `[a-zA-Z]`. -/
def isAZ (c : Char) : Bool :=
  ('a' ≤ c && c ≤ 'z') || ('A' ≤ c && c ≤ 'Z')

/-- JS `String.prototype.toLowerCase` (ASCII fragment). -/
def jsLower (s : String) : String :=
  String.mk (s.toList.map Char.toLower)

/-- JS `String.prototype.trim`. -/
def jsTrim (s : String) : String :=
  String.mk (((s.toList.dropWhile jsWs).reverse.dropWhile jsWs).reverse)

/-- Worker for `jsCollapseWs`; the flag records whether the previous
character was whitespace. -/
def collapseWsAux : Bool → List Char → List Char
  | _, [] => []
  | prevWs, c :: cs =>
    if jsWs c then
      if prevWs then collapseWsAux true cs else ' ' :: collapseWsAux true cs
    else c :: collapseWsAux false cs

/-- JS `s.replace(/\s+/g, ' ')`: every maximal whitespace run becomes one
space. -/
def jsCollapseWs (s : String) : String :=
  String.mk (collapseWsAux false s.toList)

/-- Does `needle` occur contiguously inside `hay`? -/
def subListAt : List Char → List Char → Bool
  | needle, [] => needle.isEmpty
  | needle, c :: rest => needle.isPrefixOf (c :: rest) || subListAt needle rest

/-- JS `hay.includes(needle)`. -/
def containsSub (needle hay : String) : Bool :=
  subListAt needle.toList hay.toList

/-! ## A backtracking matcher for the regex fragment the service uses

Every pattern in `parseQueryIntent` is built from case-insensitive literals,
`(?:...)?` options, ordered alternation, greedy `+`/`*` over a character
class, lazy `+?` over a character class, and one capturing group.  The
matcher below explores alternatives in exactly the order the JS engine does
(left alternative first, greedy = longest first, lazy = shortest first,
leftmost start position wins), so `jsMatch re q` is `q.match(re)` restricted
to this fragment, returning the text of capture group 1. -/

inductive RE where
  | lit (s : String)
  | opt (r : RE)
  | alt (a b : RE)
  | seq (a b : RE)
  | plusG (p : Char → Bool)
  | plusL (p : Char → Bool)
  | starG (p : Char → Bool)
  | grp (r : RE)

/-- Strip a case-insensitive literal from the head of the input. -/
def stripLit : List Char → List Char → Option (List Char)
  | [], cs => some cs
  | _ :: _, [] => none
  | p :: ps, c :: cs => if p.toLower = c.toLower then stripLit ps cs else none

/-- Greedy Kleene star over a character class: try the longest extension
first, then backtrack one character at a time. -/
def gstar (p : Char → Bool) : List Char → (List Char → Option String) → Option String
  | [], k => k []
  | c :: cs, k => (if p c then gstar p cs k else none) <|> k (c :: cs)

/-- Lazy Kleene star over a character class: try the shortest extension
first, then grow one character at a time. -/
def lstar (p : Char → Bool) : List Char → (List Char → Option String) → Option String
  | [], k => k []
  | c :: cs, k => k (c :: cs) <|> (if p c then lstar p cs k else none)

/-- Success continuation: remaining input and capture recorded so far. -/
abbrev MatchK := List Char → Option String → Option String

/-- The backtracking matcher.  `reMatch re cs cap k` tries to match `re` at
the start of `cs` and hands the remainder (and the current capture) to `k`,
exploring alternatives in JS order. -/
def reMatch : RE → List Char → Option String → MatchK → Option String
  | .lit s, cs, cap, k =>
    match stripLit s.toList cs with
    | some rest => k rest cap
    | none => none
  | .opt r, cs, cap, k => reMatch r cs cap k <|> k cs cap
  | .alt a b, cs, cap, k => reMatch a cs cap k <|> reMatch b cs cap k
  | .seq a b, cs, cap, k => reMatch a cs cap fun rest cap2 => reMatch b rest cap2 k
  | .plusG p, cs, cap, k =>
    match cs with
    | [] => none
    | c :: rest => if p c then gstar p rest (fun r2 => k r2 cap) else none
  | .plusL p, cs, cap, k =>
    match cs with
    | [] => none
    | c :: rest => if p c then lstar p rest (fun r2 => k r2 cap) else none
  | .starG p, cs, cap, k => gstar p cs fun r2 => k r2 cap
  | .grp r, cs, cap, k =>
    reMatch r cs cap fun rest _ =>
      k rest (some (String.mk (cs.take (cs.length - rest.length))))

/-- Try the whole pattern at the current position; on success return the
text of capture group 1. -/
def matchAt (re : RE) (cs : List Char) : Option String :=
  reMatch re cs none fun _ cap => some (cap.getD "")

/-- JS unanchored search: try each start position left to right. -/
def reSearch (re : RE) : List Char → Option String
  | [] => matchAt re []
  | c :: cs => matchAt re (c :: cs) <|> reSearch re cs

/-- `q.match(re)` for the fragment above: `some` of capture group 1 at the
leftmost-first match, `none` when the pattern does not occur. -/
def jsMatch (re : RE) (s : String) : Option String :=
  reSearch re s.toList

/-! ## The query-intent classifier (`parseQueryIntent`) -/

/-- The class `[a-zA-Z\s.'-]` used by the author patterns. -/
def authorChar (c : Char) : Bool :=
  isAZ c || jsWs c || c = '.' || c = '\'' || c = '-'

/-- The class `[a-zA-Z\s&-]` used by the genre patterns. -/
def genreChar (c : Char) : Bool :=
  isAZ c || jsWs c || c = '&' || c = '-'

/-- JS `.` (anything but a line terminator). -/
def dotChar (c : Char) : Bool :=
  !(c = '\n' || c = '\r' || c.val = 0x2028 || c.val = 0x2029)

/-- `\s+`. -/
def wsPlus : RE := .plusG jsWs

/-- `books?`. -/
def reBooks : RE := .seq (.lit "book") (.opt (.lit "s"))

/-- `novels?`. -/
def reNovels : RE := .seq (.lit "novel") (.opt (.lit "s"))

/-- `/(?:books?\s+)?(?:written\s+)?by\s+([a-zA-Z\s.'-]+)/i` -/
def authorRE1 : RE :=
  .seq (.opt (.seq reBooks wsPlus))
    (.seq (.opt (.seq (.lit "written") wsPlus))
      (.seq (.lit "by") (.seq wsPlus (.grp (.plusG authorChar)))))

/-- `/(?:works?\s+)?(?:of|from)\s+([a-zA-Z\s.'-]+)/i` -/
def authorRE2 : RE :=
  .seq (.opt (.seq (.lit "work") (.seq (.opt (.lit "s")) wsPlus)))
    (.seq (.alt (.lit "of") (.lit "from"))
      (.seq wsPlus (.grp (.plusG authorChar))))

/-- `/([a-zA-Z\s.'-]+)'s\s+books?/i` -/
def authorRE3 : RE :=
  .seq (.grp (.plusG authorChar)) (.seq (.lit "'s") (.seq wsPlus reBooks))

/-- `/author:?\s*([a-zA-Z\s.'-]+)/i` -/
def authorRE4 : RE :=
  .seq (.lit "author") (.seq (.opt (.lit ":")) (.seq (.starG jsWs) (.grp (.plusG authorChar))))

/-- `/(?:genre:?\s*)?(?:books?\s+in\s+)?([a-zA-Z\s&-]+?)\s+(?:books?|novels?|genre)/i` -/
def genreRE1 : RE :=
  .seq (.opt (.seq (.lit "genre") (.seq (.opt (.lit ":")) (.starG jsWs))))
    (.seq (.opt (.seq reBooks (.seq wsPlus (.seq (.lit "in") wsPlus))))
      (.seq (.grp (.plusL genreChar))
        (.seq wsPlus (.alt reBooks (.alt reNovels (.lit "genre"))))))

/-- `/(?:recommend\s+)?([a-zA-Z\s&-]+?)\s+(?:books?|novels?|fiction|non-fiction)/i` -/
def genreRE2 : RE :=
  .seq (.opt (.seq (.lit "recommend") wsPlus))
    (.seq (.grp (.plusL genreChar))
      (.seq wsPlus (.alt reBooks (.alt reNovels (.alt (.lit "fiction") (.lit "non-fiction"))))))

/-- `/(?:books?\s+)?(?:similar\s+to|like)\s+(.+)/i` -/
def similarRE1 : RE :=
  .seq (.opt (.seq reBooks wsPlus))
    (.seq (.alt (.seq (.lit "similar") (.seq wsPlus (.lit "to"))) (.lit "like"))
      (.seq wsPlus (.grp (.plusG dotChar))))

/-- `/(?:more\s+books?\s+like)\s+(.+)/i` -/
def similarRE2 : RE :=
  .seq (.lit "more")
    (.seq wsPlus (.seq reBooks (.seq wsPlus (.seq (.lit "like") (.seq wsPlus (.grp (.plusG dotChar)))))))

inductive IntentType where
  | author
  | genre
  | topic
  | similar_to
  | general
deriving DecidableEq

structure QueryIntent where
  type : IntentType
  value : String
  originalQuery : String
deriving DecidableEq

/-- The `commonGenres` vocabulary, verbatim from the source. -/
def commonGenres : List String :=
  ["fiction", "non-fiction", "mystery", "romance", "fantasy", "sci-fi",
   "science fiction", "biography", "history", "self-help", "business",
   "philosophy", "poetry", "drama", "thriller", "horror", "young adult",
   "children"]

/-- `commonGenres.some((genre) => potentialGenre.includes(genre) ||
genre.includes(potentialGenre))`. -/
def genreVocabOverlap (potentialGenre : String) : Bool :=
  commonGenres.any fun genre =>
    containsSub genre potentialGenre || containsSub potentialGenre genre

/-- First author pattern that matches wins; its capture is the result. -/
def firstCapture (res : List RE) (q : String) : Option String :=
  match res with
  | [] => none
  | re :: rest => jsMatch re q <|> firstCapture rest q

/-- One iteration of the genre loop: the pattern must match and the
extracted phrase must overlap the vocabulary. -/
def tryGenre (q : String) (re : RE) : Option String :=
  match jsMatch re q with
  | none => none
  | some m =>
    if genreVocabOverlap (jsLower (jsTrim m)) then some (jsTrim m) else none

/-- `RecommendationService.parseQueryIntent`, translated clause by clause:
author patterns first, then the vocabulary-gated genre patterns, then the
similar-to patterns, finally the `general` fallback. -/
def parseQueryIntent (query : String) : QueryIntent :=
  match firstCapture [authorRE1, authorRE2, authorRE3, authorRE4] query with
  | some m => ⟨.author, jsCollapseWs (jsTrim m), query⟩
  | none =>
    match tryGenre query genreRE1 <|> tryGenre query genreRE2 with
    | some v => ⟨.genre, v, query⟩
    | none =>
      match firstCapture [similarRE1, similarRE2] query with
      | some m => ⟨.similar_to, jsTrim m, query⟩
      | none => ⟨.general, query, query⟩

/-! ## Search strategy selection (`getSearchStrategy`) -/

structure SearchStrategy where
  useMetadataFilter : Bool
  metadataField : Option String
  metadataValue : Option String
  semanticWeight : ℚ
  hybridSearch : Bool
deriving DecidableEq

/-- `RecommendationService.getSearchStrategy`: the `switch` on
`intent.type`; `similar_to`, `general` (and the never-produced `topic`)
share the default arm. -/
def getSearchStrategy (intent : QueryIntent) : SearchStrategy :=
  match intent.type with
  | .author =>
    { useMetadataFilter := true
      metadataField := some "author"
      metadataValue := some intent.value
      semanticWeight := 3 / 10
      hybridSearch := true }
  | .genre =>
    { useMetadataFilter := true
      metadataField := some "categories"
      metadataValue := some intent.value
      semanticWeight := 7 / 10
      hybridSearch := true }
  | _ =>
    { useMetadataFilter := false
      metadataField := none
      metadataValue := none
      semanticWeight := 1
      hybridSearch := false }

/-! ## Hybrid search (`performHybridSearch`)

The Pinecone index and the embedding model are modelled as an environment of
responses, one per retrieval path (each path is queried at most once per
invocation).  A run returns its outcome together with the ordered list of
outbound gateway calls it issued. -/

/-- Stored metadata of one Pinecone match; the upstream store is
schema-loose, so every field is optional. -/
structure BookMeta where
  title : Option String
  author : Option String
  description : Option String
  categories : Option String
  rating : Option String
  ratingsCount : Option String
  thumbnail : Option String
  publishedYear : Option String
deriving DecidableEq

/-- One match returned by `pineconeIndex.query` (`score` may be absent). -/
structure SearchMatch where
  id : String
  score : Option ℚ
  metadata : Option BookMeta
deriving DecidableEq

/-- One outbound call to an external gateway. -/
inductive CallKind where
  | exactQuery
  | fuzzyQuery
  | embed
  | semanticQuery
deriving DecidableEq

/-- Responses of the external services for one invocation;
`Except.error ()` is a rejected promise. -/
structure Env where
  exact : Except Unit (List SearchMatch)
  fuzzy : Except Unit (List SearchMatch)
  embedding : Except Unit (List ℚ)
  semantic : Except Unit (List SearchMatch)

/-- Errors `performHybridSearch` can raise to its caller (the two
metadata-path failures are caught inside and never appear here). -/
inductive HSError where
  | dimensionMismatch (got : Nat)
  | upstreamEmbed
  | upstreamSemantic
deriving DecidableEq

/-- JS truthiness of an optional string (`undefined` and `""` are falsy). -/
def truthyStr : Option String → Bool
  | none => false
  | some s => s ≠ ""

/-- `ids` of the accumulated result list (the `existingIds` set). -/
def idsOf (rs : List SearchMatch) : List String :=
  rs.map SearchMatch.id

/-- The metadata phase of `performHybridSearch`: the exact `$eq` query
(errors caught and ignored), then — only when fewer than `topK` results so
far — the fuzzy `$regex` query, merged by id (errors caught and ignored). -/
def metadataPhase (env : Env) (strategy : SearchStrategy) (topK : ℕ) :
    List SearchMatch × List CallKind :=
  if strategy.useMetadataFilter && truthyStr strategy.metadataField
      && truthyStr strategy.metadataValue then
    let r1 : List SearchMatch :=
      match env.exact with
      | .ok ms => ms
      | .error _ => []
    if r1.length < topK then
      match env.fuzzy with
      | .ok ms =>
        (r1 ++ ms.filter (fun m => !(idsOf r1).contains m.id),
         [CallKind.exactQuery, CallKind.fuzzyQuery])
      | .error _ => (r1, [CallKind.exactQuery, CallKind.fuzzyQuery])
    else (r1, [CallKind.exactQuery])
  else ([], [])

/-- `RecommendationService.performHybridSearch`: metadata phase, then — when
the count is still short of `topK` or the strategy asks for hybrid search —
the embedding call (length-validated against 512) and the semantic query,
with semantic-origin scores weighted by `semanticWeight` in hybrid runs. -/
def performHybridSearch (env : Env) (intent : QueryIntent)
    (strategy : SearchStrategy) (topK : ℕ) :
    Except HSError (List SearchMatch) × List CallKind :=
  let mp := metadataPhase env strategy topK
  let results := mp.1
  if results.length < topK || strategy.hybridSearch then
    match env.embedding with
    | .error _ => (.error .upstreamEmbed, mp.2 ++ [CallKind.embed])
    | .ok vec =>
      if vec.length ≠ 512 then
        (.error (.dimensionMismatch vec.length), mp.2 ++ [CallKind.embed])
      else
        match env.semantic with
        | .error _ =>
          (.error .upstreamSemantic, mp.2 ++ [CallKind.embed, CallKind.semanticQuery])
        | .ok ms =>
          let newSem := ms.filter fun m => !(idsOf results).contains m.id
          let weighted :=
            if strategy.hybridSearch then
              newSem.map fun m => { m with score := some (m.score.getD 0 * strategy.semanticWeight) }
            else newSem
          (.ok (results ++ weighted), mp.2 ++ [CallKind.embed, CallKind.semanticQuery])
  else (.ok results, mp.2)

/-! ## Ranking (`rankResults`) -/

/-- `(a.metadata?.author || '')`. -/
def metaAuthor (m : SearchMatch) : String :=
  (m.metadata.bind BookMeta.author).getD ""

/-- `(a.metadata?.categories || '')`. -/
def metaCategories (m : SearchMatch) : String :=
  (m.metadata.bind BookMeta.categories).getD ""

/-- `(a.score || 0)`. -/
def scoreOf (m : SearchMatch) : ℚ :=
  m.score.getD 0

/-- `aAuthor.includes(targetAuthor)` after both sides are lowercased. -/
def authorHit (target : String) (m : SearchMatch) : Bool :=
  containsSub (jsLower target) (jsLower (metaAuthor m))

/-- `aCategories.includes(targetGenre)` after both sides are lowercased. -/
def genreHit (target : String) (m : SearchMatch) : Bool :=
  containsSub (jsLower target) (jsLower (metaCategories m))

/-- `a` sorts no later than `b` under the author comparator
(match-flag descending, then score descending). -/
def authorLe (target : String) (a b : SearchMatch) : Bool :=
  (authorHit target a && !authorHit target b)
    || (authorHit target a == authorHit target b && decide (scoreOf b ≤ scoreOf a))

/-- `a` sorts no later than `b` under the genre comparator
(match-flag descending, then score descending). -/
def genreLe (target : String) (a b : SearchMatch) : Bool :=
  (genreHit target a && !genreHit target b)
    || (genreHit target a == genreHit target b && decide (scoreOf b ≤ scoreOf a))

/-- `a` sorts no later than `b` under the default comparator
(score descending). -/
def scoreLe (a b : SearchMatch) : Bool :=
  decide (scoreOf b ≤ scoreOf a)

/-- The intent-specific stable sort at the top of `rankResults`.
(JS `Array.prototype.sort` is stable, and a stable sort under a total
preorder comparator is unique, so `List.mergeSort` computes it.) -/
def rankOrder (results : List SearchMatch) (intent : QueryIntent) : List SearchMatch :=
  match intent.type with
  | .author => results.mergeSort (authorLe intent.value)
  | .genre => results.mergeSort (genreLe intent.value)
  | _ => results.mergeSort scoreLe

/-- What a JS template literal renders for an optional string
(`undefined` prints as the text `undefined`). -/
def jsTemplate : Option String → String
  | none => "undefined"
  | some s => s

/-- The dedup key `` `${result.metadata?.title}-${result.metadata?.author}` ``. -/
def dedupKey (m : SearchMatch) : String :=
  jsTemplate (m.metadata.bind BookMeta.title) ++ "-"
    ++ jsTemplate (m.metadata.bind BookMeta.author)

/-- The `seen`-set filter of `rankResults`: keep the first occurrence of
each dedup key, drop later ones. -/
def dedupByKey : List SearchMatch → List String → List SearchMatch
  | [], _ => []
  | m :: ms, seen =>
    if seen.contains (dedupKey m) then dedupByKey ms seen
    else m :: dedupByKey ms (dedupKey m :: seen)

/-- `RecommendationService.rankResults`: intent-specific sort, then
first-occurrence dedup on `(title, author)`, then `.slice(0, topK)`. -/
def rankResults (results : List SearchMatch) (intent : QueryIntent) (topK : ℕ) :
    List SearchMatch :=
  (dedupByKey (rankOrder results intent) []).take topK

/-! ## The façade (`getRecommendations`) and the HTTP controller -/

/-- The public `Book` shape returned to clients, all fields defaulted. -/
structure Book where
  title : String
  author : String
  description : String
  categories : String
  rating : String
  ratingsCount : String
  thumbnail : String
  publishedYear : String
deriving DecidableEq

/-- The `match.metadata?.field || ''` projection at the end of
`getRecommendations`. -/
def toBook (m : SearchMatch) : Book :=
  { title := (m.metadata.bind BookMeta.title).getD ""
    author := (m.metadata.bind BookMeta.author).getD ""
    description := (m.metadata.bind BookMeta.description).getD ""
    categories := (m.metadata.bind BookMeta.categories).getD ""
    rating := (m.metadata.bind BookMeta.rating).getD ""
    ratingsCount := (m.metadata.bind BookMeta.ratingsCount).getD ""
    thumbnail := (m.metadata.bind BookMeta.thumbnail).getD ""
    publishedYear := (m.metadata.bind BookMeta.publishedYear).getD "" }

/-- `RecommendationService.getRecommendations`: classify, select strategy,
hybrid search, rank, project.  It has no `try`/`catch`, so a hybrid-search
error propagates unchanged. -/
def getRecommendations (env : Env) (query : String) (topK : ℕ) :
    Except HSError (List Book) × List CallKind :=
  match performHybridSearch env (parseQueryIntent query)
      (getSearchStrategy (parseQueryIntent query)) topK with
  | (.error e, tr) => (.error e, tr)
  | (.ok raw, tr) => (.ok ((rankResults raw (parseQueryIntent query) topK).map toBook), tr)

/-- Responses of `RecommendationController.getRecommendations`. -/
inductive ControllerResponse where
  | badRequest (msg : String)
  | payload (books : List Book)
  | serverError
deriving DecidableEq

/-- `RecommendationController.getRecommendations`: reject a falsy `query`
with HTTP 400 before any service call, default `topK ?? 10`, turn a thrown
service error into HTTP 500. -/
def controllerGetRecommendations (env : Env) (query : String) (topK : Option ℕ) :
    ControllerResponse × List CallKind :=
  if query = "" then (.badRequest "Query is required", [])
  else
    match getRecommendations env query (topK.getD 10) with
    | (.ok books, tr) => (.payload books, tr)
    | (.error _, tr) => (.serverError, tr)

/-! ## Supporting lemmas -/

/-- `dedupByKey` only removes elements; it never reorders or invents. -/
theorem dedupByKey_sublist (l : List SearchMatch) (seen : List String) :
    List.Sublist (dedupByKey l seen) l := by
  induction l generalizing seen with
  | nil => simp [dedupByKey]
  | cons m ms ih =>
    simp only [dedupByKey]
    split
    · exact (ih seen).cons m
    · exact (ih _).cons₂ m

/-- Keys of `dedupByKey`'s output avoid the `seen` set. -/
theorem dedupByKey_key_not_seen (l : List SearchMatch) (seen : List String) :
    ∀ m ∈ dedupByKey l seen, dedupKey m ∉ seen := by
  induction l generalizing seen with
  | nil => simp [dedupByKey]
  | cons a ms ih =>
    simp only [dedupByKey]
    split
    · exact ih seen
    · intro m hm
      rcases List.mem_cons.mp hm with rfl | hm2
      · simpa using (by assumption : ¬(seen.contains (dedupKey m) = true))
      · intro hs
        exact ih (dedupKey a :: seen) m hm2 (List.mem_cons_of_mem _ hs)

/-- `dedupByKey` leaves no two entries with the same dedup key. -/
theorem dedupByKey_pairwise (l : List SearchMatch) (seen : List String) :
    (dedupByKey l seen).Pairwise (fun a b => dedupKey a ≠ dedupKey b) := by
  induction l generalizing seen with
  | nil => simp [dedupByKey]
  | cons a ms ih =>
    simp only [dedupByKey]
    split
    · exact ih seen
    · refine List.Pairwise.cons (fun b hb hEq => ?_) (ih _)
      exact dedupByKey_key_not_seen ms (dedupKey a :: seen) b hb
        (hEq ▸ List.mem_cons_self _ _)

/-- The ranked slice is a sublist of the sorted candidate order. -/
theorem rankResults_sublist_rankOrder (results : List SearchMatch)
    (intent : QueryIntent) (topK : ℕ) :
    List.Sublist (rankResults results intent topK) (rankOrder results intent) :=
  (List.take_sublist _ _).trans (dedupByKey_sublist _ _)

/-- The metadata phase only talks to the metadata paths. -/
theorem metadataPhase_calls (env : Env) (strategy : SearchStrategy) (topK : ℕ) :
    CallKind.embed ∉ (metadataPhase env strategy topK).2 ∧
    CallKind.semanticQuery ∉ (metadataPhase env strategy topK).2 := by
  unfold metadataPhase
  cases hex : env.exact <;> cases hfz : env.fuzzy <;>
    simp only [hex, hfz] <;> split_ifs <;> simp

/-- The author comparator is transitive. -/
theorem authorLe_trans (t : String) : ∀ a b c : SearchMatch,
    authorLe t a b → authorLe t b c → authorLe t a c := by
  intro a b c hab hbc
  unfold authorLe at *
  cases ha : authorHit t a <;> cases hb : authorHit t b <;> cases hc : authorHit t c <;>
    simp [ha, hb, hc] at hab hbc ⊢ <;> linarith

/-- The author comparator is total. -/
theorem authorLe_total (t : String) : ∀ a b : SearchMatch,
    authorLe t a b || authorLe t b a := by
  intro a b
  unfold authorLe
  cases ha : authorHit t a <;> cases hb : authorHit t b <;> simp [ha, hb] <;>
    exact le_total _ _

/-- What one comparator step means for the two claim-relevant orderings. -/
theorem authorLe_imp (v : String) (a b : SearchMatch) (hle : authorLe v a b = true) :
    (authorHit v b = true → authorHit v a = true) ∧
    (authorHit v a = authorHit v b → scoreOf b ≤ scoreOf a) := by
  unfold authorLe at hle
  cases ha : authorHit v a <;> cases hb : authorHit v b <;>
    simp [ha, hb] at hle ⊢ <;> assumption

/-- When the strategy asks for hybrid search, the semantic step runs. -/
theorem performHybridSearch_embed_mem (env : Env) (intent : QueryIntent)
    (strategy : SearchStrategy) (topK : ℕ) (h : strategy.hybridSearch = true) :
    CallKind.embed ∈ (performHybridSearch env intent strategy topK).2 := by
  cases hemb : env.embedding with
  | error e => simp [performHybridSearch, h, hemb]
  | ok vec =>
    by_cases hlen : vec.length = 512
    · cases hsem : env.semantic <;> simp [performHybridSearch, h, hemb, hsem, hlen]
    · simp [performHybridSearch, h, hemb, hlen]

/-! ## Claim theorems -/

/-- C6: `getSearchStrategy` is a pure total function whose
claim-relevant fields (`useMetadataFilter`, `metadataField`,
`semanticWeight`, `hybridSearch`) depend only on the intent kind and take
exactly the tabulated values: Author ↦ (true, author, 0.3, true),
Genre ↦ (true, categories, 0.7, true), SimilarTo ↦ (false, none, 1.0,
false), General ↦ (false, none, 1.0, false). -/
theorem c6_strategy_selector_table (intent : QueryIntent) :
    (intent.type = IntentType.author →
      getSearchStrategy intent =
        { useMetadataFilter := true, metadataField := some "author",
          metadataValue := some intent.value, semanticWeight := 3 / 10,
          hybridSearch := true }) ∧
    (intent.type = IntentType.genre →
      getSearchStrategy intent =
        { useMetadataFilter := true, metadataField := some "categories",
          metadataValue := some intent.value, semanticWeight := 7 / 10,
          hybridSearch := true }) ∧
    (intent.type = IntentType.similar_to →
      getSearchStrategy intent =
        { useMetadataFilter := false, metadataField := none,
          metadataValue := none, semanticWeight := 1, hybridSearch := false }) ∧
    (intent.type = IntentType.general →
      getSearchStrategy intent =
        { useMetadataFilter := false, metadataField := none,
          metadataValue := none, semanticWeight := 1, hybridSearch := false }) ∧
    (∀ j : QueryIntent, j.type = intent.type →
      (getSearchStrategy j).useMetadataFilter = (getSearchStrategy intent).useMetadataFilter ∧
      (getSearchStrategy j).metadataField = (getSearchStrategy intent).metadataField ∧
      (getSearchStrategy j).semanticWeight = (getSearchStrategy intent).semanticWeight ∧
      (getSearchStrategy j).hybridSearch = (getSearchStrategy intent).hybridSearch) := by
  refine ⟨fun h => ?_, fun h => ?_, fun h => ?_, fun h => ?_, fun j hj => ?_⟩ <;>
    first
      | simp [getSearchStrategy, h]
      | (obtain ⟨t, v, q⟩ := j
         obtain ⟨t2, v2, q2⟩ := intent
         dsimp at hj
         subst hj
         cases t <;> simp [getSearchStrategy])

/-- Witness for C6 at a concrete Author intent. -/
theorem c6_witness :
    (QueryIntent.mk IntentType.author "Jane Austen" "by Jane Austen").type
        = IntentType.author ∧
    getSearchStrategy ⟨IntentType.author, "Jane Austen", "by Jane Austen"⟩ =
      { useMetadataFilter := true, metadataField := some "author",
        metadataValue := some "Jane Austen", semanticWeight := 3 / 10,
        hybridSearch := true } :=
  ⟨rfl, ((c6_strategy_selector_table ⟨IntentType.author, "Jane Austen", "by Jane Austen"⟩).1 rfl)⟩

/-- The full call trace is the metadata-phase trace, possibly followed by
the embedding call and then the semantic query. -/
theorem performHybridSearch_trace_shape (env : Env) (intent : QueryIntent)
    (strategy : SearchStrategy) (topK : ℕ) :
    (performHybridSearch env intent strategy topK).2
        = (metadataPhase env strategy topK).2 ∨
    (performHybridSearch env intent strategy topK).2
        = (metadataPhase env strategy topK).2 ++ [CallKind.embed] ∨
    (performHybridSearch env intent strategy topK).2
        = (metadataPhase env strategy topK).2
            ++ [CallKind.embed, CallKind.semanticQuery] := by
  by_cases hc : (decide ((metadataPhase env strategy topK).1.length < topK)
      || strategy.hybridSearch) = true
  · cases hemb : env.embedding with
    | error e => right; left; simp [performHybridSearch, hemb, hc]
    | ok vec =>
      by_cases hlen : vec.length = 512
      · cases hsem : env.semantic <;>
          (right; right; simp [performHybridSearch, hemb, hsem, hlen, hc])
      · right; left; simp [performHybridSearch, hemb, hlen, hc]
  · left; simp [performHybridSearch, hc]

/-- An embedding vector of the configured dimensionality. -/
def goodVec : List ℚ := List.replicate 512 0

/-- `goodVec` has the configured length. -/
theorem goodVec_length : goodVec.length = 512 := by
  rw [goodVec, List.length_replicate]

/-- The Author intent of the spec scenario query `"by J.R.R. Tolkien"`. -/
def tolkienIntent : QueryIntent :=
  ⟨IntentType.author, "J.R.R. Tolkien", "by J.R.R. Tolkien"⟩

/-- Metadata of a book by the scenario author. -/
def tolkienMeta (t : String) : Option BookMeta :=
  some ⟨some t, some "J.R.R. Tolkien", none, none, none, none, none, none⟩

/-- Three exact-metadata matches: as many as the scenario's `topK = 3`. -/
def c1Exact : List SearchMatch :=
  [⟨"b1", some 1, tolkienMeta "The Hobbit"⟩,
   ⟨"b2", some 1, tolkienMeta "The Fellowship of the Ring"⟩,
   ⟨"b3", some 1, tolkienMeta "The Two Towers"⟩]

/-- Gateway responses for the C1 scenario. -/
def c1Env : Env := ⟨.ok c1Exact, .ok [], .ok goodVec, .ok []⟩

set_option maxRecDepth 40000 in
/-- C1 counterexample: with Author intent, `topK = 3` and an exact metadata
query that already returned 3 candidates, the executor still issues the
embedding call and the semantic vector query, because the Author strategy
sets `hybridSearch = true` and line 214 tests
`results.length < topK || strategy.hybridSearch`. -/
theorem c1_counterexample :
    c1Env.exact = Except.ok c1Exact ∧ 3 ≤ c1Exact.length ∧
    CallKind.embed
        ∈ (performHybridSearch c1Env tolkienIntent (getSearchStrategy tolkienIntent) 3).2 ∧
    CallKind.semanticQuery
        ∈ (performHybridSearch c1Env tolkienIntent (getSearchStrategy tolkienIntent) 3).2 :=
  ⟨rfl, by decide, by decide, by decide⟩

/-- C1 amended: for an Author-intent run whose exact metadata query already
returned at least `topK` candidates, the fuzzy metadata query is never
issued (that step short-circuits), but the embedding call is still always
issued because the Author strategy sets `hybridSearch = true`. -/
theorem c1_amended (env : Env) (intent : QueryIntent) (topK : ℕ)
    (ms : List SearchMatch) (h1 : 1 ≤ topK)
    (ha : intent.type = IntentType.author)
    (hex : env.exact = Except.ok ms) (hk : topK ≤ ms.length) :
    CallKind.fuzzyQuery
        ∉ (performHybridSearch env intent (getSearchStrategy intent) topK).2 ∧
    CallKind.embed
        ∈ (performHybridSearch env intent (getSearchStrategy intent) topK).2 := by
  have hstrat : getSearchStrategy intent =
      { useMetadataFilter := true, metadataField := some "author",
        metadataValue := some intent.value, semanticWeight := 3 / 10,
        hybridSearch := true } := by
    unfold getSearchStrategy; rw [ha]
  have hmp : (metadataPhase env (getSearchStrategy intent) topK).2
        = [CallKind.exactQuery] ∨
      (metadataPhase env (getSearchStrategy intent) topK).2 = [] := by
    rw [hstrat]
    unfold metadataPhase
    by_cases hv : intent.value = ""
    · right; simp [truthyStr, hv]
    · left
      simp only [truthyStr, hv, hex]
      simp [Nat.not_lt.mpr hk, hv]
  refine ⟨fun hmem => ?_,
    performHybridSearch_embed_mem env intent (getSearchStrategy intent) topK
      (by rw [hstrat])⟩
  rcases performHybridSearch_trace_shape env intent (getSearchStrategy intent) topK
      with h2 | h2 | h2 <;>
    rw [h2] at hmem <;> rcases hmp with h3 | h3 <;> rw [h3] at hmem <;> simp at hmem

set_option maxRecDepth 40000 in
/-- Witness for the amended C1 at the scenario input. -/
theorem c1_amended_witness :
    (1 ≤ 3 ∧ tolkienIntent.type = IntentType.author ∧
      c1Env.exact = Except.ok c1Exact ∧ 3 ≤ c1Exact.length) ∧
    (CallKind.fuzzyQuery
        ∉ (performHybridSearch c1Env tolkienIntent (getSearchStrategy tolkienIntent) 3).2 ∧
     CallKind.embed
        ∈ (performHybridSearch c1Env tolkienIntent (getSearchStrategy tolkienIntent) 3).2) :=
  ⟨⟨by decide, rfl, rfl, by decide⟩,
   c1_amended c1Env tolkienIntent 3 c1Exact (by decide) rfl rfl (by decide)⟩

/-- Gateway responses used for the C2 counterexample. -/
def c2Env : Env := ⟨.ok [], .ok [], .ok goodVec, .ok []⟩

set_option maxRecDepth 40000 in
/-- C2 counterexample: the controller only rejects a falsy `query`.  The
whitespace-only query `" "` is accepted and leads to an outbound embedding
call, and an out-of-range `topK = 0` is accepted as well, so the claimed
validation does not exist. -/
theorem c2_counterexample :
    (controllerGetRecommendations c2Env " " (some 5)).1
        ≠ ControllerResponse.badRequest "Query is required" ∧
    CallKind.embed ∈ (controllerGetRecommendations c2Env " " (some 5)).2 ∧
    (controllerGetRecommendations c2Env "dragons" (some 0)).1
        ≠ ControllerResponse.badRequest "Query is required" := by
  refine ⟨?_, ?_, ?_⟩ <;> decide

/-- C2 amended: only a request whose `query` is the empty (falsy) string is
rejected — with the 400 `ValidationError` response and zero outbound calls;
whitespace-only queries and out-of-range `topK` values are not rejected. -/
theorem c2_amended (env : Env) (topK : Option ℕ) :
    controllerGetRecommendations env "" topK
      = (ControllerResponse.badRequest "Query is required", []) := rfl

/-- Dimension-mismatch behaviour at the hybrid-search level. -/
theorem performHybridSearch_dim (env : Env) (intent : QueryIntent)
    (strategy : SearchStrategy) (topK : ℕ) (v : List ℚ)
    (hv : env.embedding = Except.ok v) (hlen : v.length ≠ 512)
    (hcall : CallKind.embed ∈ (performHybridSearch env intent strategy topK).2) :
    (performHybridSearch env intent strategy topK).1
        = Except.error (HSError.dimensionMismatch v.length) ∧
    CallKind.semanticQuery ∉ (performHybridSearch env intent strategy topK).2 := by
  by_cases hc : (decide ((metadataPhase env strategy topK).1.length < topK)
      || strategy.hybridSearch) = true
  · constructor
    · simp [performHybridSearch, hv, hlen, hc]
    · have hns := (metadataPhase_calls env strategy topK).2
      simp [performHybridSearch, hv, hlen, hc, List.mem_append]
      exact hns
  · exfalso
    have htr : (performHybridSearch env intent strategy topK).2
        = (metadataPhase env strategy topK).2 := by
      simp [performHybridSearch, hc]
    rw [htr] at hcall
    exact (metadataPhase_calls env strategy topK).1 hcall

/-- The façade's trace is exactly the executor's trace. -/
theorem getRecommendations_trace (env : Env) (q : String) (topK : ℕ) :
    (getRecommendations env q topK).2 =
      (performHybridSearch env (parseQueryIntent q)
        (getSearchStrategy (parseQueryIntent q)) topK).2 := by
  unfold getRecommendations
  rcases hres : performHybridSearch env (parseQueryIntent q)
      (getSearchStrategy (parseQueryIntent q)) topK with ⟨r, tr⟩
  cases r <;> rfl

/-- C3: whenever the embedding gateway was consulted and returned a vector
whose length is not the configured 512, `getRecommendations` fails with the
dimension-mismatch error and the semantic vector query is never issued. -/
theorem c3_dimension_mismatch (env : Env) (query : String) (topK : ℕ)
    (v : List ℚ) (hv : env.embedding = Except.ok v) (hlen : v.length ≠ 512)
    (hcall : CallKind.embed ∈ (getRecommendations env query topK).2) :
    (getRecommendations env query topK).1
        = Except.error (HSError.dimensionMismatch v.length) ∧
    CallKind.semanticQuery ∉ (getRecommendations env query topK).2 := by
  have htr := getRecommendations_trace env query topK
  rw [htr] at hcall
  obtain ⟨hres1, hres2⟩ := performHybridSearch_dim env (parseQueryIntent query)
    (getSearchStrategy (parseQueryIntent query)) topK v hv hlen hcall
  constructor
  · unfold getRecommendations
    rcases hp : performHybridSearch env (parseQueryIntent query)
        (getSearchStrategy (parseQueryIntent query)) topK with ⟨r, tr⟩
    rw [hp] at hres1
    cases r with
    | error e =>
      simp at hres1
      simp [hres1]
    | ok xs => simp at hres1
  · rw [htr]; exact hres2

/-- Gateway responses with a wrong-dimension embedding vector. -/
def c3Env : Env := ⟨.ok [], .ok [], .ok [0, 0], .ok []⟩

set_option maxRecDepth 40000 in
/-- Witness for C3: a 2-dimensional embedding response makes the run fail
with `dimensionMismatch 2` and no semantic query. -/
theorem c3_witness :
    (c3Env.embedding = Except.ok [0, 0] ∧ ([0, 0] : List ℚ).length ≠ 512 ∧
      CallKind.embed ∈ (getRecommendations c3Env "dragons" 5).2) ∧
    ((getRecommendations c3Env "dragons" 5).1
        = Except.error (HSError.dimensionMismatch ([0, 0] : List ℚ).length) ∧
     CallKind.semanticQuery ∉ (getRecommendations c3Env "dragons" 5).2) :=
  ⟨⟨rfl, by decide, by decide⟩,
   c3_dimension_mismatch c3Env "dragons" 5 [0, 0] rfl (by decide) (by decide)⟩

/-- C4: the ranked result never exceeds `topK` entries, no two of its
entries share the same `(title, author)` pair, and the `topK` slice is
taken after deduplication: whenever dedup leaves at least `topK` unique
candidates the result has exactly `topK` entries (first occurrence in rank
order kept, by construction of the `seen` filter). -/
theorem c4_ranker_invariants (results : List SearchMatch) (intent : QueryIntent)
    (topK : ℕ) (h : 1 ≤ topK) :
    (rankResults results intent topK).length ≤ topK ∧
    (rankResults results intent topK).Pairwise (fun a b =>
      ¬(a.metadata.bind BookMeta.title = b.metadata.bind BookMeta.title ∧
        a.metadata.bind BookMeta.author = b.metadata.bind BookMeta.author)) ∧
    (topK ≤ (dedupByKey (rankOrder results intent) []).length →
      (rankResults results intent topK).length = topK) := by
  refine ⟨?_, ?_, fun hge => ?_⟩
  · unfold rankResults
    simpa using List.length_take_le topK _
  · have hp : (rankResults results intent topK).Pairwise
        (fun a b => dedupKey a ≠ dedupKey b) :=
      (dedupByKey_pairwise (rankOrder results intent) []).sublist
        (List.take_sublist _ _)
    refine hp.imp ?_
    intro a b hne hsame
    apply hne
    unfold dedupKey
    rw [hsame.1, hsame.2]
  · unfold rankResults
    simp [List.length_take, Nat.min_eq_left hge]

/-- Metadata record used by the ranking examples. -/
def rankMeta (t a : String) : Option BookMeta :=
  some ⟨some t, some a, none, none, none, none, none, none⟩

/-- Candidates with one duplicated `(title, author)` pair. -/
def c4Results : List SearchMatch :=
  [⟨"x1", some 9, rankMeta "Dune" "Frank Herbert"⟩,
   ⟨"x2", some 8, rankMeta "Dune" "Frank Herbert"⟩,
   ⟨"x3", some 7, rankMeta "Hyperion" "Dan Simmons"⟩,
   ⟨"x4", some 6, rankMeta "Ilium" "Dan Simmons"⟩]

/-- A General intent for the ranking examples. -/
def c4Intent : QueryIntent :=
  ⟨IntentType.general, "space opera", "space opera"⟩

/-- Witness for C4 on a list with a duplicate pair and `topK = 2`. -/
theorem c4_witness :
    1 ≤ 2 ∧
    ((rankResults c4Results c4Intent 2).length ≤ 2 ∧
     (rankResults c4Results c4Intent 2).Pairwise (fun a b =>
       ¬(a.metadata.bind BookMeta.title = b.metadata.bind BookMeta.title ∧
         a.metadata.bind BookMeta.author = b.metadata.bind BookMeta.author)) ∧
     (2 ≤ (dedupByKey (rankOrder c4Results c4Intent) []).length →
       (rankResults c4Results c4Intent 2).length = 2)) :=
  ⟨by decide, c4_ranker_invariants c4Results c4Intent 2 (by decide)⟩

/-- C5: after ranking an Author-intent candidate list, a candidate whose
author field contains the target author (case-insensitively) never appears
after one whose author field does not, regardless of scores; and within the
same containment group, scores are descending. -/
theorem c5_author_ordering (results : List SearchMatch) (intent : QueryIntent)
    (topK : ℕ) (h : intent.type = IntentType.author) :
    (rankResults results intent topK).Pairwise (fun a b =>
      (authorHit intent.value b = true → authorHit intent.value a = true) ∧
      (authorHit intent.value a = authorHit intent.value b →
        scoreOf b ≤ scoreOf a)) := by
  have hro : rankOrder results intent = results.mergeSort (authorLe intent.value) := by
    unfold rankOrder; rw [h]
  have hsorted : (rankOrder results intent).Pairwise
      (fun a b => authorLe intent.value a b = true) := by
    rw [hro]
    exact List.sorted_mergeSort (authorLe_trans intent.value)
      (authorLe_total intent.value) results
  have himp : (rankOrder results intent).Pairwise (fun a b =>
      (authorHit intent.value b = true → authorHit intent.value a = true) ∧
      (authorHit intent.value a = authorHit intent.value b →
        scoreOf b ≤ scoreOf a)) :=
    hsorted.imp fun hle => authorLe_imp intent.value _ _ hle
  exact himp.sublist (rankResults_sublist_rankOrder results intent topK)

/-- Author-intent candidates where the only author-field match has the
lowest raw score. -/
def c5Results : List SearchMatch :=
  [⟨"y1", some 9, rankMeta "Elsewhere" "Somebody Else"⟩,
   ⟨"y2", some (1 / 10), rankMeta "The Hobbit" "J.R.R. TOLKIEN"⟩,
   ⟨"y3", some 5, rankMeta "Nowhere" "Nobody"⟩]

/-- Witness for C5 at the Tolkien intent. -/
theorem c5_witness :
    tolkienIntent.type = IntentType.author ∧
    (rankResults c5Results tolkienIntent 3).Pairwise (fun a b =>
      (authorHit tolkienIntent.value b = true →
        authorHit tolkienIntent.value a = true) ∧
      (authorHit tolkienIntent.value a = authorHit tolkienIntent.value b →
        scoreOf b ≤ scoreOf a)) :=
  ⟨rfl, c5_author_ordering c5Results tolkienIntent 3 rfl⟩

/-- C7: when the semantic step runs, only the semantic-origin candidates
that are not already in the merged set are appended; in a hybrid run each
appended candidate's score is `(score || 0) * semanticWeight`, while the
metadata-origin prefix is passed through unchanged; in a semantic-only run
(`hybridSearch = false`) the appended candidates keep their scores. -/
theorem c7_semantic_weighting (env : Env) (intent : QueryIntent)
    (strategy : SearchStrategy) (topK : ℕ) (v : List ℚ) (ms : List SearchMatch)
    (hv : env.embedding = Except.ok v) (hlen : v.length = 512)
    (hs : env.semantic = Except.ok ms) :
    (strategy.hybridSearch = true →
      (performHybridSearch env intent strategy topK).1 =
        Except.ok ((metadataPhase env strategy topK).1 ++
          ((ms.filter fun m =>
              !(idsOf (metadataPhase env strategy topK).1).contains m.id).map
            fun m =>
              { m with score := some (m.score.getD 0 * strategy.semanticWeight) }))) ∧
    (strategy.hybridSearch = false →
      (metadataPhase env strategy topK).1.length < topK →
      (performHybridSearch env intent strategy topK).1 =
        Except.ok ((metadataPhase env strategy topK).1 ++
          (ms.filter fun m =>
            !(idsOf (metadataPhase env strategy topK).1).contains m.id))) := by
  constructor
  · intro hh
    simp [performHybridSearch, hv, hlen, hs, hh]
  · intro hh hlt
    simp [performHybridSearch, hv, hlen, hs, hh, hlt]

/-- A semantic response sharing one id with the metadata results. -/
def c7Env : Env :=
  ⟨.ok [⟨"m1", some 1, rankMeta "Dune" "Frank Herbert"⟩], .ok [], .ok goodVec,
   .ok [⟨"m1", some (9 / 10), rankMeta "Dune" "Frank Herbert"⟩,
        ⟨"s2", some (1 / 2), rankMeta "Hyperion" "Dan Simmons"⟩]⟩

/-- Witness for C7 with the Author strategy (weight `0.3`). -/
theorem c7_witness :
    (c7Env.embedding = Except.ok goodVec ∧ goodVec.length = 512 ∧
      (getSearchStrategy tolkienIntent).hybridSearch = true) ∧
    (performHybridSearch c7Env tolkienIntent (getSearchStrategy tolkienIntent) 3).1 =
      Except.ok ((metadataPhase c7Env (getSearchStrategy tolkienIntent) 3).1 ++
        ((([⟨"m1", some (9 / 10), rankMeta "Dune" "Frank Herbert"⟩,
            ⟨"s2", some (1 / 2), rankMeta "Hyperion" "Dan Simmons"⟩] :
              List SearchMatch).filter fun m =>
            !(idsOf (metadataPhase c7Env (getSearchStrategy tolkienIntent) 3).1).contains m.id).map
          fun m =>
            { m with
              score := some (m.score.getD 0 * (getSearchStrategy tolkienIntent).semanticWeight) })) :=
  ⟨⟨rfl, goodVec_length, rfl⟩,
   (c7_semantic_weighting c7Env tolkienIntent (getSearchStrategy tolkienIntent) 3 goodVec
      [⟨"m1", some (9 / 10), rankMeta "Dune" "Frank Herbert"⟩,
       ⟨"s2", some (1 / 2), rankMeta "Hyperion" "Dan Simmons"⟩]
      rfl goodVec_length rfl).1 rfl⟩

/-- Rebuilding `performHybridSearch` from equal environment views. -/
theorem performHybridSearch_congr (e1 e2 : Env) (intent : QueryIntent)
    (strategy : SearchStrategy) (topK : ℕ)
    (hmp : metadataPhase e1 strategy topK = metadataPhase e2 strategy topK)
    (hemb : e1.embedding = e2.embedding) (hsem : e1.semantic = e2.semantic) :
    performHybridSearch e1 intent strategy topK
      = performHybridSearch e2 intent strategy topK := by
  unfold performHybridSearch
  rw [hmp, hemb, hsem]

/-- C9: a failing exact metadata query is absorbed: the run behaves exactly
as if that query had returned zero matches; likewise for the fuzzy query;
and when the remaining paths (embedding of the right dimension, semantic
query) succeed, the run returns `ok` — the metadata-path failure never
propagates to the caller. -/
theorem c9_partial_path_failure (env : Env) (intent : QueryIntent)
    (strategy : SearchStrategy) (topK : ℕ) :
    performHybridSearch { env with exact := Except.error () } intent strategy topK
      = performHybridSearch { env with exact := Except.ok [] } intent strategy topK ∧
    performHybridSearch { env with fuzzy := Except.error () } intent strategy topK
      = performHybridSearch { env with fuzzy := Except.ok [] } intent strategy topK ∧
    (∀ v ms, env.embedding = Except.ok v → v.length = 512 →
      env.semantic = Except.ok ms →
      ∃ out, (performHybridSearch env intent strategy topK).1 = Except.ok out) := by
  refine ⟨?_, ?_, fun v ms hv hlen hs => ?_⟩
  · exact performHybridSearch_congr _ _ intent strategy topK rfl rfl rfl
  · refine performHybridSearch_congr _ _ intent strategy topK ?_ rfl rfl
    unfold metadataPhase
    cases hex : env.exact <;> simp [hex]
  · by_cases hc : (decide ((metadataPhase env strategy topK).1.length < topK)
        || strategy.hybridSearch) = true
    · cases hb : strategy.hybridSearch
      · have hlt : (metadataPhase env strategy topK).1.length < topK := by
          simpa [hb] using hc
        refine ⟨(metadataPhase env strategy topK).1 ++
          (ms.filter fun m =>
            !(idsOf (metadataPhase env strategy topK).1).contains m.id), ?_⟩
        simp [performHybridSearch, hv, hlen, hs, hc, hb, hlt]
      · refine ⟨(metadataPhase env strategy topK).1 ++
          ((ms.filter fun m =>
              !(idsOf (metadataPhase env strategy topK).1).contains m.id).map
            fun m => { m with score := some (m.score.getD 0 * strategy.semanticWeight) }), ?_⟩
        simp [performHybridSearch, hv, hlen, hs, hc, hb]
    · refine ⟨(metadataPhase env strategy topK).1, ?_⟩
      simp [performHybridSearch, hc]

/-- Gateway responses where both metadata paths reject. -/
def c9Env : Env :=
  ⟨.error (), .error (), .ok goodVec,
   .ok [⟨"s1", some (3 / 4), rankMeta "Dune" "Frank Herbert"⟩]⟩

/-- Witness for C9 at a concrete failing environment. -/
theorem c9_witness :
    (performHybridSearch { c9Env with exact := Except.error () } tolkienIntent
        (getSearchStrategy tolkienIntent) 2
      = performHybridSearch { c9Env with exact := Except.ok [] } tolkienIntent
        (getSearchStrategy tolkienIntent) 2) ∧
    (c9Env.embedding = Except.ok goodVec ∧ goodVec.length = 512 ∧
      ∃ out, (performHybridSearch c9Env tolkienIntent
          (getSearchStrategy tolkienIntent) 2).1 = Except.ok out) :=
  ⟨(c9_partial_path_failure c9Env tolkienIntent (getSearchStrategy tolkienIntent) 2).1,
   rfl, goodVec_length,
   (c9_partial_path_failure c9Env tolkienIntent (getSearchStrategy tolkienIntent) 2).2.2
     goodVec [⟨"s1", some (3 / 4), rankMeta "Dune" "Frank Herbert"⟩] rfl goodVec_length rfl⟩

/-- The genre loop only succeeds when the vocabulary check passed. -/
theorem tryGenre_overlap {q : String} {re : RE} {v : String}
    (h : tryGenre q re = some v) :
    genreVocabOverlap (jsLower v) = true := by
  unfold tryGenre at h
  split at h
  · exact absurd h (by simp)
  · split at h
    · next hov =>
        obtain rfl : _ = v := Option.some.inj h
        exact hov
    · exact absurd h (by simp)

set_option maxRecDepth 40000 in
/-- C8: whenever the classifier answers `genre`, the extracted phrase
(lowercased) overlaps the fixed genre vocabulary — a genre-pattern match
alone is not enough; in particular `"good books"` matches the pattern but
fails the vocabulary check and falls through to `general`. -/
theorem c8_genre_vocab_gate (q : String)
    (h : (parseQueryIntent q).type = IntentType.genre) :
    genreVocabOverlap (jsLower (parseQueryIntent q).value) = true ∧
    parseQueryIntent "good books"
      = ⟨IntentType.general, "good books", "good books"⟩ := by
  refine ⟨?_, by decide⟩
  unfold parseQueryIntent at h ⊢
  rcases hA : firstCapture [authorRE1, authorRE2, authorRE3, authorRE4] q with _ | m
  · rw [hA] at h
    rcases hG : (tryGenre q genreRE1 <|> tryGenre q genreRE2) with _ | v
    · rw [hG] at h
      rcases hS : firstCapture [similarRE1, similarRE2] q with _ | m2 <;>
        rw [hS] at h <;> simp at h
    · dsimp only
      rcases h1 : tryGenre q genreRE1 with _ | v1
      · rw [h1] at hG
        simp at hG
        exact tryGenre_overlap hG
      · rw [h1] at hG
        simp at hG
        subst hG
        exact tryGenre_overlap h1
  · rw [hA] at h
    simp at h

set_option maxRecDepth 40000 in
/-- Witness for C8 at the genre query `"fantasy books"`. -/
theorem c8_witness :
    (parseQueryIntent "fantasy books").type = IntentType.genre ∧
    (genreVocabOverlap (jsLower (parseQueryIntent "fantasy books").value) = true ∧
     parseQueryIntent "good books"
       = ⟨IntentType.general, "good books", "good books"⟩) :=
  ⟨by decide, c8_genre_vocab_gate "fantasy books" (by decide)⟩

set_option maxRecDepth 40000 in
/-- C10: a query that misses the `by` author pattern but matches the
`of`/`from` pattern is classified as an Author query whose value is that
pattern's captured trailing phrase (trimmed, whitespace-collapsed); in
particular `"history of science"` becomes an Author query for
`"science"`. -/
theorem c10_of_from_author (q m : String)
    (h1 : jsMatch authorRE1 q = none) (h2 : jsMatch authorRE2 q = some m) :
    parseQueryIntent q = ⟨IntentType.author, jsCollapseWs (jsTrim m), q⟩ ∧
    parseQueryIntent "history of science"
      = ⟨IntentType.author, "science", "history of science"⟩ := by
  refine ⟨?_, by decide⟩
  have hfc : firstCapture [authorRE1, authorRE2, authorRE3, authorRE4] q = some m := by
    simp only [firstCapture, h1, h2, Option.none_orElse, Option.some_orElse]
  unfold parseQueryIntent
  rw [hfc]

set_option maxRecDepth 40000 in
/-- Witness for C10 at the query `"history of science"`. -/
theorem c10_witness :
    (jsMatch authorRE1 "history of science" = none ∧
     jsMatch authorRE2 "history of science" = some "science") ∧
    (parseQueryIntent "history of science"
        = ⟨IntentType.author, jsCollapseWs (jsTrim "science"), "history of science"⟩ ∧
     parseQueryIntent "history of science"
        = ⟨IntentType.author, "science", "history of science"⟩) :=
  ⟨⟨by decide, by decide⟩,
   c10_of_from_author "history of science" "science" (by decide) (by decide)⟩

end RecBook
